import Mathlib

/-!
Verification of the diffwatch change-detection and reactive-state engine.

Shallow embedding of the Go sources (git.go, filetree.go, model.go,
watcher.go).  Go strings are byte sequences; they are modelled as `List Char`
(`GoStr`).  Git porcelain status prefixes and all key names used by the
program are ASCII, where byte offsets and character offsets coincide; the
places where Go indexes raw bytes are noted at each definition.  Subprocess
calls (`git status`, `git diff | delta`, `fsnotify`) are external
collaborators: status queries are modelled as an explicit query function
passed to the watcher, and `GetDiff` is modelled by the exact shell command
string it builds.  Rendering code (View functions, lipgloss styling) is not
modelled; no claim depends on it.
-/

/-- Go strings, modelled as lists of characters. -/
abbrev GoStr := List Char

/-- Helper turning a Lean string literal into a `GoStr`. -/
def gs (s : String) : GoStr := s.toList

/-- Go `strings.ToLower` (character-wise; agrees with Go on ASCII). -/
def goToLower (s : GoStr) : GoStr := s.map Char.toLower

/-- Go `strings.Contains s sub`: does `sub` occur as a contiguous substring
of `s`?  Mirrors the first-occurrence scan of the Go standard library. -/
def goContains (s sub : GoStr) : Bool :=
  match s with
  | [] => sub.isPrefixOf []
  | _ :: rest => sub.isPrefixOf s || goContains rest sub

/-- Go `strings.HasPrefix s pre`. -/
def goHasPrefix (s pre : GoStr) : Bool := pre.isPrefixOf s

/-- Go `len` of a string: its UTF-8 byte length. -/
def goByteLen (s : GoStr) : Nat := (s.map Char.utf8Size).sum

/-- Go `strings.TrimSpace` (leading and trailing whitespace removed). -/
def goTrimSpace (s : GoStr) : GoStr :=
  ((s.dropWhile Char.isWhitespace).reverse.dropWhile Char.isWhitespace).reverse

/-- Splits `s` around the first occurrence of `sep`, returning the parts
before and after it, or `none` when `sep` does not occur.  This is the
combination of Go `strings.Contains` / `strings.SplitN(s, sep, 2)` used in
`git.go` (`GetChangedFiles`): `some (pre, post)` means
`s = pre ++ sep ++ post` with `pre` shortest possible. -/
def splitFirst (sep : GoStr) (s : GoStr) : Option (GoStr × GoStr) :=
  if sep.isPrefixOf s then some ([], s.drop sep.length)
  else
    match s with
    | [] => none
    | c :: rest =>
      match splitFirst sep rest with
      | some pq => some (c :: pq.1, pq.2)
      | none => none
termination_by s.length
decreasing_by simp

/-- git.go: `Repo`.  `path` is the absolute path of the repository root
(`Repo.Path`); `watchPath` is the watched subtree (`Repo.WatchPath`),
equal to `path` or a subdirectory of it. -/
structure Repo where
  name : GoStr
  path : GoStr
  watchPath : GoStr
deriving DecidableEq, Repr

/-- git.go: `ChangedFile`.  The Go struct holds a pointer to its `Repo`;
pointer identity is only ever used through the `Path`/`WatchPath` fields,
so a value copy is a faithful embedding. -/
structure ChangedFile where
  repo : Repo
  path : GoStr
  status : GoStr
deriving DecidableEq, Repr

/-- git.go: `parseStatus`, converting the two porcelain status characters
(`x` = index, `y` = worktree) to the single display status. -/
def parseStatus (x y : Char) : GoStr :=
  if x = '?' ∨ y = '?' then ['?'] else
  if x = 'A' ∨ y = 'A' then ['A'] else
  if x = 'D' ∨ y = 'D' then ['D'] else
  if x = 'R' ∨ y = 'R' then ['R'] else
  if x = 'M' ∨ y = 'M' then ['M'] else
  if x = 'C' ∨ y = 'C' then ['C'] else
  [x]

/-- Spec-side precedence list for C5, written from the spec words:
Untracked > Added > Deleted > Renamed > Modified > Copied. -/
def statusPrecedence : List Char := ['?', 'A', 'D', 'R', 'M', 'C']

/-- Spec-side display status for C5: the first status in the precedence list
matched by either character, falling back to the index character when
neither character matches any status in the list. -/
def pickStatus (x y : Char) : List Char → GoStr
  | [] => [x]
  | c :: rest => if x = c ∨ y = c then [c] else pickStatus x y rest

/-- Spec-side display status selection (see `statusPrecedence`). -/
def displayStatusSpec (x y : Char) : GoStr := pickStatus x y statusPrecedence

/-- git.go: the two leading porcelain status bytes, `xy[0]` and `xy[1]`.
Only called on `line.take 2` of a line of length at least 4, so the
fallthrough cases are unreachable. -/
def parseStatusXY : GoStr → GoStr
  | x :: y :: _ => parseStatus x y
  | s => s

/-- The rename separator of porcelain output, Go literal `" -> "`. -/
def arrowSep : GoStr := gs " -> "

/-- git.go: the body of the `GetChangedFiles` parsing loop for a single
porcelain line.  Lines shorter than 4 bytes are skipped (`none`); otherwise
`xy` is the two status bytes, the path field is `line[3:]` trimmed, and for
rename lines (`"old -> new"`) the part after the first `" -> "` is kept.
The three leading bytes of a porcelain line are ASCII, so the byte offsets
used by Go coincide with the character offsets used here. -/
def parsePorcelainLine (repo : Repo) (line : GoStr) : Option ChangedFile :=
  if line.length < 4 then none
  else
    some
      { repo := repo
        path :=
          match splitFirst arrowSep (goTrimSpace (line.drop 3)) with
          | some pq => pq.2
          | none => goTrimSpace (line.drop 3)
        status := parseStatusXY (line.take 2) }

/-- git.go: the parsing stage of `GetChangedFiles` over the lines of
`git status --porcelain` output.  The final `sort.Slice` by path only
reorders the produced files and is not modelled; no claim depends on the
order of the status query result. -/
def getChangedFilesLines (repo : Repo) (lines : List GoStr) : List ChangedFile :=
  lines.filterMap (parsePorcelainLine repo)

/-- The shell single-quote character (written via its code point so that the
source stays free of quote-escaping noise). -/
def squo : Char := Char.ofNat 39

/-- The double-quote character. -/
def dquo : Char := Char.ofNat 34

/-- git.go: `shellQuote` — wrap in single quotes, replacing each embedded
single quote by the five-character sequence quote, double-quote, quote,
double-quote, quote. -/
def shellQuote (s : GoStr) : GoStr :=
  squo :: (s.flatMap (fun c => if c = squo then [squo, dquo, squo, dquo, squo] else [c])) ++ [squo]

/-- git.go: `filepath.Join(repo.Path, file.Path)` as used in `GetDiff`.
Both arguments are already clean paths, so `Join` is plain concatenation
with a separator. -/
def goJoin (a b : GoStr) : GoStr := a ++ '/' :: b

/-- git.go: the fixed delta pipeline appended to both diff commands. -/
def deltaPipe : GoStr :=
  gs " | delta --paging=never --color-only --line-numbers --file-style=omit --hunk-header-style=omit"

/-- git.go: the shell command string built by `GetDiff` for a file: for
untracked files (`status == "?"`) a `--no-index` diff of `/dev/null`
against the absolute file path; otherwise a worktree diff of the relative
path run at the repository root. -/
def getDiffCmd (f : ChangedFile) : GoStr :=
  if f.status = ['?'] then
    gs "git -C " ++ shellQuote f.repo.path ++
      gs " --no-optional-locks diff --no-index /dev/null " ++
      shellQuote (goJoin f.repo.path f.path) ++ deltaPipe
  else
    gs "git -C " ++ shellQuote f.repo.path ++
      gs " --no-optional-locks diff -- " ++ shellQuote f.path ++ deltaPipe

/-- Spec-side shape of a diff-load request for C9: either a comparison of a
file against an empty baseline, or a diff of a relative path against the
tracked history at a repository root. -/
inductive DiffRequest where
  | emptyBaseline (root absPath : GoStr)
  | trackedHistory (root relPath : GoStr)
deriving DecidableEq, Repr

/-- Spec-side classification for C9, written from the spec words: untracked
files are compared against an empty baseline, all other files diff their
relative path against the tracked history at the owning repository root. -/
def specDiffRequestFor (f : ChangedFile) : DiffRequest :=
  if f.status = ['?'] then
    DiffRequest.emptyBaseline f.repo.path (goJoin f.repo.path f.path)
  else
    DiffRequest.trackedHistory f.repo.path f.path

/-- Rendering of a spec-side diff request into the shell command the
external tool is invoked with. -/
def renderDiffRequest : DiffRequest → GoStr
  | DiffRequest.emptyBaseline root absPath =>
      gs "git -C " ++ shellQuote root ++
        gs " --no-optional-locks diff --no-index /dev/null " ++
        shellQuote absPath ++ deltaPipe
  | DiffRequest.trackedHistory root relPath =>
      gs "git -C " ++ shellQuote root ++
        gs " --no-optional-locks diff -- " ++ shellQuote relPath ++ deltaPipe

/-- watcher.go: `FilesChangedMsg`, the change notification sent from the
watcher to the coordinator. -/
structure FilesChangedMsg where
  repo : Repo
  files : List ChangedFile
deriving DecidableEq, Repr

/-- filetree.go: `RepoGroup`. -/
structure RepoGroup where
  repo : Repo
  files : List ChangedFile
  collapsed : Bool
deriving DecidableEq, Repr

/-- filetree.go: `FileTreeModel`.  The `width`/`height` fields only affect
rendering and are omitted. -/
structure FileTreeModel where
  repos : List RepoGroup
  cursor : Int
  selected : Option ChangedFile
  filter : GoStr
  filtering : Bool
deriving DecidableEq, Repr

/-- filetree.go: `flatItem`, one row of the flattened tree view.
`fileIndex` is `-1` for repository headers, as in the Go source. -/
structure FlatItem where
  isRepo : Bool
  repoIndex : Nat
  fileIndex : Int
deriving DecidableEq, Repr

/-- filetree.go: the accumulation loop of `filteredFiles` (append those
files whose lowercased relative path contains the lowercased filter). -/
def filterLoop (phi : GoStr) (acc : List ChangedFile) : List ChangedFile → List ChangedFile
  | [] => acc
  | f :: rest =>
    if goContains (goToLower f.path) (goToLower phi) then filterLoop phi (acc ++ [f]) rest
    else filterLoop phi acc rest

/-- filetree.go: `filteredFiles`, parameterised by the filter string and the
group list (the only fields of the model it reads).  An empty filter
returns the group files unfiltered.  `repos[repoIndex]` is always in range
at the Go call sites; an out-of-range index yields `[]` here. -/
def filteredFilesCore (phi : GoStr) (repos : List RepoGroup) (ri : Nat) : List ChangedFile :=
  match repos[ri]? with
  | some rg => if phi = [] then rg.files else filterLoop phi [] rg.files
  | none => []

/-- filetree.go: the `visibleItems` loop, walking the group list from index
`ri` upward: a group with an active filter and no matching files is skipped
entirely; otherwise a header row, followed (when not collapsed) by one file
row per filtered file. -/
def visibleItemsAux (phi : GoStr) (repos : List RepoGroup) : Nat → List RepoGroup → List FlatItem
  | _, [] => []
  | ri, rg :: rest =>
    (if phi ≠ [] ∧ (filteredFilesCore phi repos ri).length = 0 then []
     else
       ⟨true, ri, -1⟩ ::
         (if rg.collapsed then []
          else (List.range (filteredFilesCore phi repos ri).length).map
            (fun fi => ⟨false, ri, (fi : Int)⟩)))
      ++ visibleItemsAux phi repos (ri + 1) rest

/-- filetree.go: `visibleItems` as a function of the filter and group list. -/
def visibleItemsCore (phi : GoStr) (repos : List RepoGroup) : List FlatItem :=
  visibleItemsAux phi repos 0 repos

/-- filetree.go: `visibleItems` of a model. -/
def visibleItems (m : FileTreeModel) : List FlatItem :=
  visibleItemsCore m.filter m.repos

/-- filetree.go: `filteredFiles` of a model. -/
def filteredFiles (m : FileTreeModel) (ri : Nat) : List ChangedFile :=
  filteredFilesCore m.filter m.repos ri

/-- filetree.go: the first assignment of `clampCursor`
(`if cursor >= len(items): cursor = len(items) - 1`). -/
def clampHigh (c : Int) (n : Nat) : Int := if c ≥ (n : Int) then (n : Int) - 1 else c

/-- filetree.go: the second assignment of `clampCursor`
(`if cursor < 0: cursor = 0`). -/
def clampLow (c : Int) : Int := if c < 0 then 0 else c

/-- filetree.go: `clampCursor`, the two clamping assignments in sequence. -/
def clampCursorM (m : FileTreeModel) : FileTreeModel :=
  { m with cursor := clampLow (clampHigh m.cursor (visibleItems m).length) }

/-- filetree.go: the lookup-and-replace loop at the top of
`handleFilesChanged`: the files of the first group whose repository has the
same root path (`Repo.Path`) as the notification are replaced; the returned
flag is Go's `found`. -/
def replaceFirstGroup (msg : FilesChangedMsg) : List RepoGroup → List RepoGroup × Bool
  | [] => ([], false)
  | rg :: rest =>
    if rg.repo.path = msg.repo.path then ({ rg with files := msg.files } :: rest, true)
    else
      ((rg :: (replaceFirstGroup msg rest).1), (replaceFirstGroup msg rest).2)

/-- filetree.go: replace-or-append step of `handleFilesChanged` (a new group
is appended only when no group matched and the notification is non-empty). -/
def replaceOrAppend (groups : List RepoGroup) (msg : FilesChangedMsg) : List RepoGroup :=
  if (replaceFirstGroup msg groups).2 = false ∧ msg.files ≠ [] then
    (replaceFirstGroup msg groups).1 ++ [⟨msg.repo, msg.files, false⟩]
  else (replaceFirstGroup msg groups).1

/-- filetree.go: the pruning loop of `handleFilesChanged` (keep only groups
with at least one file). -/
def pruneGroups (groups : List RepoGroup) : List RepoGroup :=
  groups.filter (fun rg => !rg.files.isEmpty)

/-- filetree.go: the group list after the replace/append and prune steps of
`handleFilesChanged`. -/
def groupsAfter (groups : List RepoGroup) (msg : FilesChangedMsg) : List RepoGroup :=
  pruneGroups (replaceOrAppend groups msg)

/-- filetree.go: the selection-clearing step of `handleFilesChanged`: the
selection survives exactly when some group still lists a file with the same
repository root path and the same relative path (the Go `stillExists`
double loop). -/
def clearSelection (gsps : List RepoGroup) (sel? : Option ChangedFile) : Option ChangedFile :=
  match sel? with
  | none => none
  | some sel =>
    if ∃ rg ∈ gsps, ∃ f ∈ rg.files, f.repo.path = sel.repo.path ∧ f.path = sel.path then
      some sel
    else none

/-- filetree.go: the auto-select scan shared by `handleFilesChanged`
(filetree.go:226-239) and the coordinator (model.go:112-127): the first
file row of the flattened projection, in display order. -/
def autoSelectCore (phi : GoStr) (repos : List RepoGroup) : Option ChangedFile :=
  (visibleItemsCore phi repos).findSome? (fun item =>
    if item.isRepo then none
    else
      if item.fileIndex < ((filteredFilesCore phi repos item.repoIndex).length : Int) then
        (filteredFilesCore phi repos item.repoIndex)[item.fileIndex.toNat]?
      else none)

/-- filetree.go: the auto-select scan over a model. -/
def autoSelectFile (m : FileTreeModel) : Option ChangedFile :=
  autoSelectCore m.filter m.repos

/-- filetree.go: the tail of `handleFilesChanged`: when no file is selected,
auto-select the first visible file row and return it as the
`FileSelectedMsg` command payload (`none` = no command). -/
def postAutoSelect (m : FileTreeModel) : FileTreeModel × Option ChangedFile :=
  match m.selected with
  | some _ => (m, none)
  | none =>
    match autoSelectFile m with
    | some f => ({ m with selected := some f }, some f)
    | none => (m, none)

/-- filetree.go: `handleFilesChanged` — replace or append the notified
group, prune empty groups, clear a vanished selection, re-clamp the cursor,
then auto-select when nothing is selected.  The second component is the
`FileSelectedMsg` command returned to the caller. -/
def handleFilesChanged (m : FileTreeModel) (msg : FilesChangedMsg) : FileTreeModel × Option ChangedFile :=
  postAutoSelect (clampCursorM
    { m with
        repos := groupsAfter m.repos msg
        selected := clearSelection (groupsAfter m.repos msg) m.selected })

/-- model.go: the commands issued by the coordinator on a change
notification. -/
inductive Cmd where
  | loadDiff (f : ChangedFile)
  | waitForChange
deriving DecidableEq, Repr

/-- model.go: the `FilesChangedMsg` branch of `Model.Update` (lines
107-129).  The file-tree update runs first and its command is discarded
(`m.filetree, _ = m.filetree.Update(msg)`); the coordinator then runs its
own auto-select scan only when nothing is selected, issuing a diff load for
the found file, and always re-arms `WaitForChange`. -/
def updateFilesChanged (ft : FileTreeModel) (msg : FilesChangedMsg) : FileTreeModel × List Cmd :=
  match (handleFilesChanged ft msg).1.selected with
  | some _ => ((handleFilesChanged ft msg).1, [Cmd.waitForChange])
  | none =>
    match autoSelectFile (handleFilesChanged ft msg).1 with
    | some file =>
        ({ (handleFilesChanged ft msg).1 with selected := some file },
          [Cmd.loadDiff file, Cmd.waitForChange])
    | none => ((handleFilesChanged ft msg).1, [Cmd.waitForChange])

/-- filetree.go: the collapse toggle
(`m.repos[ri].Collapsed = !m.repos[ri].Collapsed`). -/
def toggleCollapse (m : FileTreeModel) (ri : Nat) : FileTreeModel :=
  { m with
      repos :=
        match m.repos[ri]? with
        | some rg => m.repos.set ri { rg with collapsed := !rg.collapsed }
        | none => m.repos }

/-- filetree.go: `updateFilter` — filter-mode key handling.  Accept
(`enter`) and cancel (`esc`) leave filter mode (cancel also clears the
filter text), `backspace` drops the last byte, and any single-byte key is
appended to the filter; each of those re-clamps the cursor.  Go drops and
measures bytes; on the ASCII keys involved, bytes and characters coincide. -/
def updateFilter (m : FileTreeModel) (key : GoStr) : FileTreeModel :=
  if key = gs "enter" ∨ key = gs "esc" then
    clampCursorM
      { m with filtering := false, filter := if key = gs "esc" then [] else m.filter }
  else if key = gs "backspace" then
    clampCursorM
      { m with filter := if m.filter.length > 0 then m.filter.dropLast else m.filter }
  else if goByteLen key = 1 then clampCursorM { m with filter := m.filter ++ key }
  else m

/-- filetree.go: the `enter` branch of `updateNavigation` applied to the
item under the cursor: toggle-and-clamp on a header row, select-and-emit on
a file row.  The `none` fall-throughs correspond to index guards that
always hold at the Go call sites. -/
def navEnterItem (m : FileTreeModel) : Option FlatItem → FileTreeModel × Option ChangedFile
  | none => (m, none)
  | some item =>
    if item.isRepo then (clampCursorM (toggleCollapse m item.repoIndex), none)
    else
      if item.fileIndex < ((filteredFiles m item.repoIndex).length : Int) then
        match (filteredFiles m item.repoIndex)[item.fileIndex.toNat]? with
        | some file => ({ m with selected := some file }, some file)
        | none => (m, none)
      else (m, none)

/-- filetree.go: `updateNavigation` — normal-mode key handling over the
flattened item list: cursor movement (`j`/`down`, `k`/`up`), `enter`
(toggle a header or select a file, emitting a `FileSelectedMsg` payload),
`c` (toggle the group of the row under the cursor), and `/` (enter filter
mode, clearing the filter text).  An empty flattened list short-circuits. -/
def updateNavigation (m : FileTreeModel) (key : GoStr) : FileTreeModel × Option ChangedFile :=
  if (visibleItems m).length = 0 then (m, none)
  else if key = gs "j" ∨ key = gs "down" then
    (if m.cursor < ((visibleItems m).length : Int) - 1 then { m with cursor := m.cursor + 1 }
     else m, none)
  else if key = gs "k" ∨ key = gs "up" then
    (if m.cursor > 0 then { m with cursor := m.cursor - 1 } else m, none)
  else if key = gs "enter" then
    if m.cursor < ((visibleItems m).length : Int) then
      navEnterItem m (visibleItems m)[m.cursor.toNat]?
    else (m, none)
  else if key = gs "c" then
    if m.cursor < ((visibleItems m).length : Int) then
      match (visibleItems m)[m.cursor.toNat]? with
      | some item => (clampCursorM (toggleCollapse m item.repoIndex), none)
      | none => (m, none)
    else (m, none)
  else if key = gs "/" then ({ m with filtering := true, filter := [] }, none)
  else (m, none)

/-- Cursor well-formedness (C8): the cursor is `0` when the flattened
sequence is empty and lies within `[0, len-1]` otherwise. -/
abbrev cursorInBounds (m : FileTreeModel) : Prop :=
  ((visibleItems m).length = 0 → m.cursor = 0) ∧
    ((visibleItems m).length ≠ 0 →
      0 ≤ m.cursor ∧ m.cursor < ((visibleItems m).length : Int))

/-- watcher.go: the watcher state relevant to notification emission: the
fixed repository registry and the set of repository root paths with pending
changes (`w.pending`, a set keyed on `repo.Path`; modelled as a
duplicate-free list in insertion order — Go map iteration order is
arbitrary, and no claim depends on it).  The fsnotify handle, debounce
timer and shutdown channel are external and not modelled. -/
structure WatcherState where
  repos : List Repo
  pending : List GoStr
deriving DecidableEq, Repr

/-- watcher.go: `findRepo` — the first registered repository whose watch
path or root path contains the given path (prefix with a path separator, or
exact match); both checks run for a repository before moving to the next. -/
def findRepo (repos : List Repo) (p : GoStr) : Option Repo :=
  repos.find? (fun r =>
    goHasPrefix p (r.watchPath ++ ['/']) || decide (p = r.watchPath) ||
      goHasPrefix p (r.path ++ ['/']) || decide (p = r.path))

/-- watcher.go: the event-recording step of the watcher `loop` for an event
the watcher does not ignore (`shouldIgnore` is filesystem-dependent and
external): the owning repository is looked up and its root path is marked
pending (`w.pending[repo.Path] = true`).  Events outside every repository
are dropped. -/
def markPending (w : WatcherState) (eventPath : GoStr) : WatcherState :=
  match findRepo w.repos eventPath with
  | none => w
  | some r =>
    { w with pending := if r.path ∈ w.pending then w.pending else w.pending ++ [r.path] }

/-- watcher.go: `flush` — the debounce-timer callback.  It clears the
pending set, and for every pending path re-resolves the repository and
re-runs the status query (`GetChangedFiles`, an external subprocess,
modelled by the `query` argument; `none` is a query failure, which is
skipped), sending one `FilesChangedMsg` per success.  No previous state is
consulted: the emitted list depends only on the pending set and the
query results. -/
def flush (w : WatcherState) (query : Repo → Option (List ChangedFile)) :
    List FilesChangedMsg × WatcherState :=
  (w.pending.filterMap (fun p =>
      match findRepo w.repos p with
      | none => none
      | some r =>
        match query r with
        | none => none
        | some files => some ⟨r, files⟩),
    { w with pending := [] })

/-- Example: two tracked scopes inside one repository root (spec §3: two
subdirectories of one large repository tracked independently). -/
def repoA : Repo := ⟨gs "repo/a", gs "/work/repo", gs "/work/repo/a"⟩

/-- Example: second tracked scope sharing the root of `repoA`. -/
def repoB : Repo := ⟨gs "repo/b", gs "/work/repo", gs "/work/repo/b"⟩

/-- Example changed file of scope `repoA`. -/
def fileA1 : ChangedFile := ⟨repoA, gs "a/x.txt", gs "M"⟩

/-- Example changed file of scope `repoB`. -/
def fileB1 : ChangedFile := ⟨repoB, gs "b/y.txt", gs "M"⟩

/-- Second example changed file of scope `repoB`. -/
def fileB2 : ChangedFile := ⟨repoB, gs "b/z.txt", gs "M"⟩

/-- Example tree with one RepoGroup per scope of the shared-root pair. -/
def treeTwoScopes : FileTreeModel :=
  ⟨[⟨repoA, [fileA1], false⟩, ⟨repoB, [fileB1], false⟩], 0, none, [], false⟩

/-- Example notification for scope `repoB` only. -/
def msgScopeB : FilesChangedMsg := ⟨repoB, [fileB2]⟩

/-- Example single-scope repository. -/
def repoW : Repo := ⟨gs "w", gs "/repo", gs "/repo"⟩

/-- Example changed file of `repoW`. -/
def wfile : ChangedFile := ⟨repoW, gs "file.txt", gs "M"⟩

/-- Second example changed file of `repoW`. -/
def wfile2 : ChangedFile := ⟨repoW, gs "other.txt", gs "A"⟩

/-- Example time-invariant status query: the repository state never
changes between samples. -/
def constQuery : Repo → Option (List ChangedFile) := fun r => some [⟨r, gs "file.txt", gs "M"⟩]

/-- Example initial watcher state over `repoW` with nothing pending. -/
def watcher0 : WatcherState := ⟨[repoW], []⟩

/-- Example filesystem event path inside `repoW` (e.g. a touch that leaves
the changed-file state of the repository untouched). -/
def eventW : GoStr := gs "/repo/file.txt"

/-- Example empty file tree. -/
def treeEmpty : FileTreeModel := ⟨[], 0, none, [], false⟩

/-- Example first notification (one changed file for `repoW`). -/
def msgNew : FilesChangedMsg := ⟨repoW, [wfile]⟩

/-- Example tree with `wfile` selected. -/
def treeSel : FileTreeModel := ⟨[⟨repoW, [wfile], false⟩], 1, some wfile, [], false⟩

/-- Example notification that keeps the selected file present. -/
def msgKeep : FilesChangedMsg := ⟨repoW, [wfile, wfile2]⟩

/-- Example file for the filter test of C7 (spec §8). -/
def testFile : ChangedFile := ⟨repoW, gs "src/test_utils.go", gs "M"⟩

/-- Second example file for the filter test of C7. -/
def readmeFile : ChangedFile := ⟨repoW, gs "README.md", gs "M"⟩

/-- Example group holding the two filter-test files. -/
def groupEx : RepoGroup := ⟨repoW, [testFile, readmeFile], false⟩

/-- The reconciled group list of `handleFilesChanged` is the
replace/append-then-prune result, whatever the selection does. -/
theorem handleFilesChanged_repos (m : FileTreeModel) (msg : FilesChangedMsg) :
    (handleFilesChanged m msg).1.repos = groupsAfter m.repos msg := by
  unfold handleFilesChanged postAutoSelect
  split
  · rfl
  · split <;> rfl

/-- C5: for every two-character raw status code, the display status is the
first match in the precedence list Untracked > Added > Deleted > Renamed >
Modified > Copied over the index and worktree characters, falling back to
the index character when neither character matches any status in the list
(`displayStatusSpec` is written from the spec words, `parseStatus` from the
source). -/
theorem c5_status_precedence : ∀ x y : Char, parseStatus x y = displayStatusSpec x y :=
  fun _ _ => rfl

/-- C9: the diff command built by `GetDiff` is exactly the rendering of the
spec-side request: an empty-baseline (`/dev/null --no-index`) comparison of
the absolute file path for `Untracked` files, and a tracked-history diff of
the relative path at the owning repository root for every other status. -/
theorem c9_diff_request_branches :
    ∀ f : ChangedFile, getDiffCmd f = renderDiffRequest (specDiffRequestFor f) := by
  intro f
  by_cases h : f.status = ['?'] <;>
    simp [getDiffCmd, specDiffRequestFor, renderDiffRequest, h]

/-- C6: after every reconciliation of a change notification, every
RepoGroup in the projection has a non-empty file list (groups emptied by
the update are pruned in the same update, and no group is created from an
empty notification). -/
theorem c6_groups_nonempty (m : FileTreeModel) (msg : FilesChangedMsg) :
    ∀ rg ∈ (handleFilesChanged m msg).1.repos, rg.files ≠ [] := by
  intro rg hrg
  rw [handleFilesChanged_repos] at hrg
  unfold groupsAfter pruneGroups at hrg
  have h := List.mem_filter.1 hrg
  simpa using h.2

/-- Witness for C6 at a concrete reconciliation. -/
theorem c6_groups_nonempty_witness : (⟨repoW, [wfile], false⟩ : RepoGroup).files ≠ [] :=
  c6_groups_nonempty treeEmpty msgNew ⟨repoW, [wfile], false⟩ (by decide)

/-- C1 fails on the code: `handleFilesChanged` locates the existing
RepoGroup by `Repo.Path` (the repository root), not by `WatchPath`.  With
two tracked scopes sharing one root, a notification for scope
`/work/repo/b` replaces the file list of the group belonging to scope
`/work/repo/a`, and the group of `/work/repo/b` keeps its stale files. -/
theorem c1_lookup_keyed_on_root_eval :
    (handleFilesChanged treeTwoScopes msgScopeB).1.repos.map
        (fun rg => (rg.repo.watchPath, rg.files.map ChangedFile.path)) =
      [(gs "/work/repo/a", [gs "b/z.txt"]), (gs "/work/repo/b", [gs "b/y.txt"])] := by
  decide

/-- C3 fails on the code: on a notification into an empty tree the
auto-select pass inside the file tree sets the selection, but
`Model.Update` discards the tree's `FileSelectedMsg` command and its own
diff-load block is skipped because the selection is already set, so no
diff-load request is issued for the auto-selected file. -/
theorem c3_autoselect_without_diffload_eval :
    treeEmpty.selected = none ∧
      (updateFilesChanged treeEmpty msgNew).1.selected = some wfile ∧
      (updateFilesChanged treeEmpty msgNew).2 = [Cmd.waitForChange] := by
  exact ⟨rfl, by decide, by decide⟩

/-- C2 fails on the code: the watcher keeps no previous fingerprint.  After
the first observed state, a further meaningful filesystem event followed by
a debounce flush re-samples the identical repository state and emits a
second, identical notification (the claim requires exactly zero). -/
theorem c2_unchanged_reemission_cex :
    (flush (markPending watcher0 eventW) constQuery).1 = [⟨repoW, [wfile]⟩] ∧
      (flush (markPending (flush (markPending watcher0 eventW) constQuery).2 eventW)
          constQuery).1 = [⟨repoW, [wfile]⟩] := by
  exact ⟨by decide, by decide⟩

/-- The accumulation loop of `filteredFiles` is `List.filter`. -/
theorem filterLoop_eq (phi : GoStr) :
    ∀ (l acc : List ChangedFile),
      filterLoop phi acc l =
        acc ++ l.filter (fun f => goContains (goToLower f.path) (goToLower phi)) := by
  intro l
  induction l with
  | nil => intro acc; simp [filterLoop]
  | cons f rest ih =>
    intro acc
    by_cases h : goContains (goToLower f.path) (goToLower phi) = true <;>
      simp [filterLoop, h, ih, List.filter_cons]

/-- List prefix test as an existential decomposition. -/
theorem isPrefixOf_iff_exists : ∀ p s : GoStr, p.isPrefixOf s = true ↔ ∃ t, s = p ++ t := by
  intro p
  induction p with
  | nil => intro s; simp [List.isPrefixOf]
  | cons a as ih =>
    intro s
    cases s with
    | nil => simp [List.isPrefixOf]
    | cons b bs =>
      simp only [List.isPrefixOf, Bool.and_eq_true, beq_iff_eq, ih bs, List.cons_append,
        List.cons.injEq]
      constructor
      · rintro ⟨hab, t, ht⟩; exact ⟨t, hab.symm, ht⟩
      · rintro ⟨t, hab, ht⟩; exact ⟨hab.symm, t, ht⟩

/-- Go substring containment as an existential decomposition. -/
theorem goContains_iff (sub : GoStr) :
    ∀ s : GoStr, goContains s sub = true ↔ ∃ pre post, s = pre ++ sub ++ post := by
  intro s
  induction s with
  | nil =>
    simp only [goContains, isPrefixOf_iff_exists]
    constructor
    · rintro ⟨t, ht⟩; exact ⟨[], t, by simpa using ht⟩
    · rintro ⟨pre, post, hsplit⟩
      have hlen := congrArg List.length hsplit
      simp at hlen
      have hsub : sub = [] := List.eq_nil_of_length_eq_zero (by omega)
      exact ⟨[], by simp [hsub]⟩
  | cons c rest ih =>
    simp only [goContains, Bool.or_eq_true, isPrefixOf_iff_exists, ih]
    constructor
    · rintro (⟨t, ht⟩ | ⟨pre, post, hsplit⟩)
      · exact ⟨[], t, by simpa using ht⟩
      · exact ⟨c :: pre, post, by simp [hsplit]⟩
    · rintro ⟨pre, post, hsplit⟩
      cases pre with
      | nil => exact Or.inl ⟨post, by simpa using hsplit⟩
      | cons d pre2 =>
        right
        rw [List.cons_append, List.cons_append, List.cons.injEq] at hsplit
        exact ⟨pre2, post, by simpa using hsplit.2⟩

/-- C7: for a repo group and a non-empty filter, `filteredFiles` is exactly
the in-order sublist of files whose lowercased relative path contains the
lowercased filter text as a contiguous substring. -/
theorem c7_filteredFiles_characterization (phi : GoStr) (repos : List RepoGroup) (ri : Nat)
    (rg : RepoGroup) (hrg : repos[ri]? = some rg) (hphi : phi ≠ []) :
    filteredFilesCore phi repos ri =
        rg.files.filter (fun f => goContains (goToLower f.path) (goToLower phi)) ∧
      ∀ f, f ∈ filteredFilesCore phi repos ri ↔
        (f ∈ rg.files ∧ ∃ pre post, goToLower f.path = pre ++ goToLower phi ++ post) := by
  have h1 : filteredFilesCore phi repos ri =
      rg.files.filter (fun f => goContains (goToLower f.path) (goToLower phi)) := by
    unfold filteredFilesCore
    rw [hrg]
    simp [hphi, filterLoop_eq]
  refine ⟨h1, fun f => ?_⟩
  rw [h1]
  simp only [List.mem_filter]
  exact and_congr Iff.rfl (goContains_iff _ _)

/-- Witness for C7: the spec test case, filter text `test` against the
files `src/test_utils.go` and `README.md`. -/
theorem c7_filteredFiles_witness :
    filteredFilesCore (gs "test") [groupEx] 0 =
        groupEx.files.filter (fun f => goContains (goToLower f.path) (goToLower (gs "test"))) ∧
      filteredFilesCore (gs "test") [groupEx] 0 = [testFile] := by
  refine ⟨(c7_filteredFiles_characterization (gs "test") [groupEx] 0 groupEx (by decide)
    (by decide)).1, by decide⟩

/-- A list is a prefix test hit of itself followed by anything. -/
theorem isPrefixOf_append_self (l t : GoStr) : l.isPrefixOf (l ++ t) = true := by
  induction l with
  | nil => simp
  | cons a as ih => simp [List.isPrefixOf, ih]

/-- Dropping the length of the left part of an append yields the right part. -/
theorem drop_append_self (l t : GoStr) : (l ++ t).drop l.length = t := by
  induction l with
  | nil => rfl
  | cons a as ih => simp [ih]

/-- When no occurrence of `" -> "` starts inside `pre`, `splitFirst` splits
`pre ++ " -> " ++ post` exactly at that separator. -/
theorem splitFirst_at_first (pre post : GoStr)
    (hfirst : ∀ i, i < pre.length →
      arrowSep.isPrefixOf ((pre ++ arrowSep ++ post).drop i) = false) :
    splitFirst arrowSep (pre ++ arrowSep ++ post) = some (pre, post) := by
  induction pre with
  | nil =>
    simp only [List.nil_append]
    rw [splitFirst.eq_def, isPrefixOf_append_self]
    simp [drop_append_self]
  | cons c pre2 ih =>
    have h0 : arrowSep.isPrefixOf ((c :: pre2) ++ arrowSep ++ post) = false := by
      have h := hfirst 0 (by simp)
      simpa using h
    have hsh : ∀ i, i < pre2.length →
        arrowSep.isPrefixOf ((pre2 ++ arrowSep ++ post).drop i) = false := by
      intro i hi
      have h := hfirst (i + 1) (by simpa using Nat.succ_lt_succ hi)
      simpa using h
    rw [splitFirst.eq_def]
    simp only [List.cons_append] at h0 ⊢
    rw [h0]
    simp only [Bool.false_eq_true, if_false]
    rw [ih hsh]

/-- C10: for a porcelain line whose trimmed path field has the form
`old ++ " -> " ++ new` with no earlier occurrence of the separator, the
produced `ChangedFile` records `new` — the text after the first `" -> "` —
as its relative path, never the old path. -/
theorem c10_rename_records_new_path (repo : Repo) (line old new : GoStr)
    (hlen : ¬line.length < 4)
    (hdecomp : goTrimSpace (line.drop 3) = old ++ arrowSep ++ new)
    (hfirst : ∀ i, i < old.length →
      arrowSep.isPrefixOf ((old ++ arrowSep ++ new).drop i) = false) :
    parsePorcelainLine repo line = some ⟨repo, new, parseStatusXY (line.take 2)⟩ := by
  unfold parsePorcelainLine
  rw [if_neg hlen, hdecomp, splitFirst_at_first old new hfirst]

/-- Witness for C10 at the rename line `R  old.txt -> new.txt`. -/
theorem c10_rename_witness :
    parsePorcelainLine repoW (gs "R  old.txt -> new.txt") =
      some ⟨repoW, gs "new.txt", gs "R"⟩ := by
  have h := c10_rename_records_new_path repoW (gs "R  old.txt -> new.txt")
    (gs "old.txt") (gs "new.txt") (by decide) (by decide) (by decide)
  exact h.trans (by decide)

/-- C2 amended: the watcher performs no fingerprint comparison.  Every
debounce flush triggered by a meaningful filesystem event re-samples the
repository and emits exactly one notification for the scope, whether or not
the sampled state differs from the previously observed one: with a
time-invariant query, two consecutive event-flush rounds emit the same
notification twice (not zero additional notifications). -/
theorem c2_flush_reemits_unchanged_state (w : WatcherState)
    (query : Repo → Option (List ChangedFile)) (eventPath : GoStr) (r : Repo)
    (files : List ChangedFile)
    (hempty : w.pending = [])
    (hfind : findRepo w.repos eventPath = some r)
    (hself : findRepo w.repos r.path = some r)
    (hq : query r = some files) :
    (flush (markPending w eventPath) query).1 = [⟨r, files⟩] ∧
      (flush (markPending (flush (markPending w eventPath) query).2 eventPath) query).1 =
        [⟨r, files⟩] := by
  have key : ∀ w' : WatcherState, w'.repos = w.repos → w'.pending = [] →
      (flush (markPending w' eventPath) query).1 = [⟨r, files⟩] := by
    intro w' hrepos hpend
    unfold markPending
    rw [hrepos, hfind]
    unfold flush
    simp [hpend, hrepos, hself, hq]
  have h2 : (flush (markPending w eventPath) query).2.repos = w.repos := by
    unfold markPending flush
    cases findRepo w.repos eventPath <;> rfl
  have h3 : (flush (markPending w eventPath) query).2.pending = [] := by
    unfold markPending flush
    cases findRepo w.repos eventPath <;> rfl
  exact ⟨key w rfl hempty, key _ h2 h3⟩

/-- Witness for the amended C2 at a concrete unchanged repository state. -/
theorem c2_flush_reemits_witness :
    (flush (markPending watcher0 eventW) constQuery).1 = [⟨repoW, [wfile]⟩] ∧
      (flush (markPending (flush (markPending watcher0 eventW) constQuery).2 eventW)
          constQuery).1 = [⟨repoW, [wfile]⟩] :=
  c2_flush_reemits_unchanged_state watcher0 constQuery eventW repoW [wfile]
    rfl (by decide) (by decide) (by decide)

/-- Cursor clamping does not touch the selection. -/
theorem clampCursorM_selected (m : FileTreeModel) : (clampCursorM m).selected = m.selected := rfl

/-- With a present selection the tail of `handleFilesChanged` is a no-op. -/
theorem postAutoSelect_of_some (m : FileTreeModel) (sel : ChangedFile)
    (h : m.selected = some sel) : postAutoSelect m = (m, none) := by
  unfold postAutoSelect
  rw [h]

/-- C4: if after reconciling a change notification the selected file's
identifying pair — its owning scope's `watchScope` plus its relative path —
is still present in some RepoGroup's file list, then the coordinator leaves
the Selection unchanged and issues no diff-load request (only the re-armed
wait-for-change command).  The `hwf` hypothesis is registry well-formedness:
files of tracked scopes sharing the selection's `watchScope` carry the same
repository root, which holds for every registry produced by discovery
(`DiscoverRepos` derives `Path` deterministically from `WatchPath`). -/
theorem c4_selection_survival (ft : FileTreeModel) (msg : FilesChangedMsg) (sel : ChangedFile)
    (hsel : ft.selected = some sel)
    (hpair : ∃ rg ∈ groupsAfter ft.repos msg, ∃ f ∈ rg.files,
      f.repo.watchPath = sel.repo.watchPath ∧ f.path = sel.path)
    (hwf : ∀ rg ∈ groupsAfter ft.repos msg, ∀ f ∈ rg.files,
      f.repo.watchPath = sel.repo.watchPath → f.repo.path = sel.repo.path) :
    (updateFilesChanged ft msg).1.selected = some sel ∧
      (updateFilesChanged ft msg).2 = [Cmd.waitForChange] := by
  have hstill : clearSelection (groupsAfter ft.repos msg) ft.selected = some sel := by
    obtain ⟨rg, hrg, f, hf, hw, hp⟩ := hpair
    have hcond : ∃ rg ∈ groupsAfter ft.repos msg, ∃ f ∈ rg.files,
        f.repo.path = sel.repo.path ∧ f.path = sel.path :=
      ⟨rg, hrg, f, hf, hwf rg hrg f hf hw, hp⟩
    rw [hsel]
    show (if ∃ rg ∈ groupsAfter ft.repos msg, ∃ f ∈ rg.files,
        f.repo.path = sel.repo.path ∧ f.path = sel.path then some sel else none) = some sel
    rw [if_pos hcond]
  have hc : (clampCursorM
      { ft with
          repos := groupsAfter ft.repos msg
          selected := clearSelection (groupsAfter ft.repos msg) ft.selected }).selected =
      some sel := hstill
  have hh : handleFilesChanged ft msg =
      (clampCursorM
        { ft with
            repos := groupsAfter ft.repos msg
            selected := clearSelection (groupsAfter ft.repos msg) ft.selected }, none) := by
    unfold handleFilesChanged
    exact postAutoSelect_of_some _ sel hc
  have hsel1 : (handleFilesChanged ft msg).1.selected = some sel := by
    rw [hh]
    exact hc
  constructor
  · unfold updateFilesChanged
    rw [hsel1]
    exact hsel1
  · unfold updateFilesChanged
    rw [hsel1]

/-- Witness for C4: the selected file survives the reconciliation, the
selection is unchanged and only the wait-for-change command is issued. -/
theorem c4_selection_survival_witness :
    (updateFilesChanged treeSel msgKeep).1.selected = some wfile ∧
      (updateFilesChanged treeSel msgKeep).2 = [Cmd.waitForChange] :=
  c4_selection_survival treeSel msgKeep wfile rfl (by decide) (by decide)

/-- The two clamping assignments land in `[0, n-1]`, or at `0` for an empty
flattened sequence. -/
theorem clampBounds (c : Int) (n : Nat) :
    (n = 0 → clampLow (clampHigh c n) = 0) ∧
      (n ≠ 0 → 0 ≤ clampLow (clampHigh c n) ∧ clampLow (clampHigh c n) < (n : Int)) := by
  unfold clampHigh clampLow
  constructor
  · intro h
    subst h
    split <;> split <;> omega
  · intro h
    split <;> split <;> omega

/-- Clamping establishes cursor well-formedness, unconditionally. -/
theorem cursorInBounds_clampCursorM (m : FileTreeModel) : cursorInBounds (clampCursorM m) :=
  clampBounds m.cursor (visibleItems m).length

/-- Changing only the selection preserves cursor well-formedness. -/
theorem cursorInBounds_selected (m : FileTreeModel) (s : Option ChangedFile)
    (h : cursorInBounds m) : cursorInBounds { m with selected := s } := h

/-- Changing only the cursor to a value in bounds of the unchanged
flattened sequence preserves cursor well-formedness. -/
theorem cursorInBounds_cursor (m : FileTreeModel) (c : Int)
    (h1 : (visibleItems m).length = 0 → c = 0)
    (h2 : (visibleItems m).length ≠ 0 → 0 ≤ c ∧ c < ((visibleItems m).length : Int)) :
    cursorInBounds { m with cursor := c } :=
  ⟨h1, h2⟩

/-- The auto-select tail of `handleFilesChanged` preserves cursor
well-formedness (it only ever touches the selection). -/
theorem cursorInBounds_postAutoSelect (m : FileTreeModel) (h : cursorInBounds m) :
    cursorInBounds (postAutoSelect m).1 := by
  unfold postAutoSelect
  split
  · exact h
  · split
    · exact cursorInBounds_selected m _ h
    · exact h

/-- Filtering never yields more files than the unfiltered group. -/
theorem filteredFilesCore_length_le (phi : GoStr) (repos : List RepoGroup) (ri : Nat) :
    (filteredFilesCore phi repos ri).length ≤ (filteredFilesCore [] repos ri).length := by
  unfold filteredFilesCore
  cases h : repos[ri]? with
  | none => simp
  | some rg =>
    by_cases hphi : phi = []
    · simp [hphi]
    · simp [hphi, filterLoop_eq, List.length_filter_le]

/-- Clearing the filter never shortens the flattened sequence: every group
shown under a filter is shown without it, with at least as many file rows. -/
theorem visibleItemsAux_length_mono (phi : GoStr) (repos : List RepoGroup) :
    ∀ (l : List RepoGroup) (ri : Nat),
      (visibleItemsAux phi repos ri l).length ≤ (visibleItemsAux [] repos ri l).length := by
  intro l
  induction l with
  | nil => intro ri; simp [visibleItemsAux]
  | cons rg rest ih =>
    intro ri
    have hff := filteredFilesCore_length_le phi repos ri
    have hih := ih (ri + 1)
    simp only [visibleItemsAux, List.length_append]
    have hrhs : ¬(([] : GoStr) ≠ [] ∧ (filteredFilesCore [] repos ri).length = 0) := by
      simp
    rw [if_neg hrhs]
    by_cases hc : phi ≠ [] ∧ (filteredFilesCore phi repos ri).length = 0
    · rw [if_pos hc]
      by_cases hcol : rg.collapsed <;> simp [hcol] <;> omega
    · rw [if_neg hc]
      by_cases hcol : rg.collapsed <;> simp [hcol] <;> omega

/-- Entering filter mode (which clears the filter text) keeps the old
flattened length a lower bound of the new one. -/
theorem visibleItems_length_mono_clear (m : FileTreeModel) :
    (visibleItems m).length ≤
      (visibleItems { m with filtering := true, filter := ([] : GoStr) }).length :=
  visibleItemsAux_length_mono m.filter m.repos m.repos 0

/-- The `enter`-branch action of `updateNavigation` preserves cursor
well-formedness. -/
theorem cursorInBounds_navEnterItem (m : FileTreeModel) (it : Option FlatItem)
    (h : cursorInBounds m) : cursorInBounds (navEnterItem m it).1 := by
  unfold navEnterItem
  split
  · exact h
  · split
    · exact cursorInBounds_clampCursorM _
    · split
      · split
        · exact cursorInBounds_selected m _ h
        · exact h
      · exact h

/-- Entering filter mode from a non-empty flattened sequence keeps the
cursor in bounds: clearing the filter only lengthens the sequence. -/
theorem cursorInBounds_clearFilter (m : FileTreeModel) (h : cursorInBounds m)
    (h0 : (visibleItems m).length ≠ 0) :
    cursorInBounds { m with filtering := true, filter := ([] : GoStr) } := by
  have hmono := visibleItems_length_mono_clear m
  have h2 := h.2 h0
  constructor
  · intro hh
    show m.cursor = 0
    omega
  · intro hh
    refine ⟨h2.1, ?_⟩
    show m.cursor <
      ((visibleItems { m with filtering := true, filter := ([] : GoStr) }).length : Int)
    omega

/-- C8: after every structural change to the flattened sequence —
reconciliation of a change notification, any filter-mode keystroke, and
any normal-mode navigation key (collapse toggles included) — the cursor is
`0` when the flattened sequence is empty and lies within `[0, len-1]`
otherwise, so navigation never indexes past the end and never goes
negative. -/
theorem c8_cursor_in_bounds :
    (∀ (m : FileTreeModel) (msg : FilesChangedMsg), cursorInBounds (handleFilesChanged m msg).1) ∧
      (∀ (m : FileTreeModel) (key : GoStr),
        cursorInBounds m → cursorInBounds (updateFilter m key)) ∧
      (∀ (m : FileTreeModel) (key : GoStr),
        cursorInBounds m → cursorInBounds (updateNavigation m key).1) := by
  refine ⟨?_, ?_, ?_⟩
  · intro m msg
    unfold handleFilesChanged
    exact cursorInBounds_postAutoSelect _ (cursorInBounds_clampCursorM _)
  · intro m key h
    unfold updateFilter
    split
    · exact cursorInBounds_clampCursorM _
    · split
      · exact cursorInBounds_clampCursorM _
      · split
        · exact cursorInBounds_clampCursorM _
        · exact h
  · intro m key h
    unfold updateNavigation
    by_cases h0 : (visibleItems m).length = 0
    · rw [if_pos h0]
      exact h
    rw [if_neg h0]
    have h2 := h.2 h0
    by_cases hj : key = gs "j" ∨ key = gs "down"
    · rw [if_pos hj]
      by_cases hc : m.cursor < ((visibleItems m).length : Int) - 1
      · rw [if_pos hc]
        exact cursorInBounds_cursor m (m.cursor + 1) (fun hh => absurd hh h0)
          (fun _ => ⟨by omega, by omega⟩)
      · rw [if_neg hc]
        exact h
    rw [if_neg hj]
    by_cases hk : key = gs "k" ∨ key = gs "up"
    · rw [if_pos hk]
      by_cases hc : m.cursor > 0
      · rw [if_pos hc]
        exact cursorInBounds_cursor m (m.cursor - 1) (fun hh => absurd hh h0)
          (fun _ => ⟨by omega, by omega⟩)
      · rw [if_neg hc]
        exact h
    rw [if_neg hk]
    by_cases he : key = gs "enter"
    · rw [if_pos he]
      by_cases hc : m.cursor < ((visibleItems m).length : Int)
      · rw [if_pos hc]
        exact cursorInBounds_navEnterItem m _ h
      · rw [if_neg hc]
        exact h
    rw [if_neg he]
    by_cases hck : key = gs "c"
    · rw [if_pos hck]
      by_cases hc : m.cursor < ((visibleItems m).length : Int)
      · rw [if_pos hc]
        split
        · exact cursorInBounds_clampCursorM _
        · exact h
      · rw [if_neg hc]
        exact h
    rw [if_neg hck]
    by_cases hs : key = gs "/"
    · rw [if_pos hs]
      exact cursorInBounds_clearFilter m h h0
    · rw [if_neg hs]
      exact h

/-- Witness for C8 at concrete structural changes: a filter keystroke, a
collapse toggle under the cursor, and a reconciliation. -/
theorem c8_cursor_in_bounds_witness :
    cursorInBounds (updateFilter { treeSel with filtering := true } (gs "a")) ∧
      cursorInBounds (updateNavigation treeSel (gs "c")).1 ∧
      cursorInBounds (handleFilesChanged treeEmpty msgNew).1 :=
  ⟨c8_cursor_in_bounds.2.1 { treeSel with filtering := true } (gs "a") (by decide),
    c8_cursor_in_bounds.2.2 treeSel (gs "c") (by decide),
    c8_cursor_in_bounds.1 treeEmpty msgNew⟩
